import Mathlib

/-!
Verification development for the asynchronous Space-Track client
(`spacetrack/aio.py`).  The Python code is shallowly embedded: coroutines
become pure Lean functions that return their result together with an explicit
trace of the externally visible events (limiter acquisitions, HTTP requests,
callback firings, sleeps), and the mutable session state (`_authenticated`)
is threaded explicitly.  External collaborators (the base-class data tables,
the value stringifier, HTTP transport, charset decoding) are parameters of
the embedded functions.
-/

set_option autoImplicit false

namespace SpacetrackAio

/-- A JSON value as produced by `resp.json()`.  Objects keep their fields in
order; `Mapping` instances of the Python code correspond to `jobj`. -/
inductive JValue where
  | jnull
  | jbool (b : Bool)
  | jnum (n : Int)
  | jstr (s : String)
  | jarr (elems : List JValue)
  | jobj (fields : List (String × JValue))

/-- Is the JSON value a mapping (`isinstance(resp_data, Mapping)`)? -/
def JValue.isObj : JValue → Bool
  | .jobj _ => true
  | _ => false

/-- An HTTP response as seen by the client: status code, reason phrase, body
text (`await resp.text()`), and the body parsed as JSON when it parses
(`await resp.json()` raises when `jsonBody = none`). -/
structure Response where
  status : Nat
  reason : String
  bodyText : String
  jsonBody : Option JValue

/-- Substring test on character lists, the embedding of Python's
`pat in s` for strings. -/
def hasSubstring (pat : List Char) : List Char → Bool
  | [] => pat.isEmpty
  | c :: rest => pat.isPrefixOf (c :: rest) || hasSubstring pat rest

/-! ## `_ratelimited_get` (aio.py lines 166-191) -/

/-- Externally visible events of `_ratelimited_get`.  `httpGet n` is the
`n`-th `session.get` issued by this call (0 = first attempt, 1 = retry). -/
inductive GetEvent where
  | acquire
  | httpGet (n : Nat)
  | fireCallback (untilTime : Nat)
  | sleep (secs : Nat)
  deriving DecidableEq, Repr

/-- The marker substring Space-Track puts in the body of a rate-limit
violation error page. -/
def rateLimitMarker : String := "violated your query rate limit"

/-- Embedding of `AsyncSpaceTrackClient._ratelimited_get`.  `period` is
`self._ratelimiter.period`, `now` is `time.time()` at the moment the first
response came back, `resp1` is the response of the first GET and `resp2` the
response the transport would give a second GET.  Returns the response the
coroutine returns together with its event trace. -/
def ratelimitedGet (period now : Nat) (resp1 resp2 : Response) :
    Response × List GetEvent :=
  if resp1.status == 500 && hasSubstring rateLimitMarker.data resp1.bodyText.data then
    (resp2,
      [GetEvent.acquire, GetEvent.httpGet 0,
       GetEvent.fireCallback (now + period), GetEvent.sleep period,
       GetEvent.acquire, GetEvent.httpGet 1])
  else
    (resp1, [GetEvent.acquire, GetEvent.httpGet 0])

/-! ## `_raise_for_status` (aio.py lines 286-338) -/

/-- The error taxonomy visible to the claims.  `httpError` carries the status
and the composed reason of the raised `aiohttp.web_exceptions` class;
`jsonDecodeError` is the error `resp.json()` raises on a non-JSON body. -/
inductive ClientError where
  | authenticationError
  | httpError (status : Nat) (reason : String)
  | jsonDecodeError

/-- The service-supplied error message: `json['error']` when the body parses
as a mapping that has a string `error` field (a `KeyError` or `ValueError`
is swallowed by the `except` clause, leaving the message unset). -/
def errorField : Option JValue → Option String
  | some (.jobj fields) =>
    match fields.lookup "error" with
    | some (.jstr s) => some s
    | _ => none
  | _ => none

/-- Embedding of `_raise_for_status`.  `taxonomy` is the set of status codes
for which `aiohttp.web_exceptions` declares an exception class (the loop over
`aiohttp.web_exceptions.__all__` raises the class whose `status_code` matches;
when none matches the loop falls through and the function returns normally). -/
def raiseForStatus (taxonomy : List Nat) (resp : Response) :
    Except ClientError Unit :=
  if 400 ≤ resp.status ∧ resp.status < 600 then
    let msg :=
      match errorField resp.jsonBody with
      | some s => if s ≠ "" then s else resp.bodyText
      | none => resp.bodyText
    let reason :=
      if msg ≠ "" then resp.reason ++ "\nSpace-Track response:\n" ++ msg
      else resp.reason
    if taxonomy.contains resp.status then
      .error (.httpError resp.status reason)
    else
      .ok ()
  else
    .ok ()

/-- Status codes of the exception classes exported by
`aiohttp.web_exceptions` (external collaborator; the data the loop in
`_raise_for_status` iterates over). -/
def aiohttpStatusCodes : List Nat :=
  [400, 401, 402, 403, 404, 405, 406, 407, 408, 409, 410, 411, 412, 413,
   414, 415, 416, 417, 421, 422, 424, 426, 428, 429, 431, 451,
   500, 501, 502, 503, 504, 505, 506, 507, 510, 511]

/-! ## `authenticate` (aio.py lines 45-59) -/

/-- Network events of `authenticate`: the login POST. -/
inductive AuthEvent where
  | loginPost
  deriving DecidableEq, Repr

/-- `resp_data.get('Login', None) == 'Failed'` for a parsed JSON body that is
a `Mapping`. -/
def isLoginFailed : JValue → Bool
  | .jobj fields =>
    match fields.lookup "Login" with
    | some (.jstr s) => s == "Failed"
    | _ => false
  | _ => false

/-- Embedding of `AsyncSpaceTrackClient.authenticate`.  `authenticated` is
`self._authenticated` on entry, `resp` the response the transport gives the
login POST.  Returns (outcome, `self._authenticated` on exit, event trace). -/
def authenticate (taxonomy : List Nat) (authenticated : Bool)
    (resp : Response) : Except ClientError Unit × Bool × List AuthEvent :=
  if authenticated then (.ok (), true, [])
  else
    match raiseForStatus taxonomy resp with
    | .error e => (.error e, false, [AuthEvent.loginPost])
    | .ok () =>
      match resp.jsonBody with
      | none => (.error .jsonDecodeError, false, [AuthEvent.loginPost])
      | some j =>
        if isLoginFailed j then
          (.error .authenticationError, false, [AuthEvent.loginPost])
        else
          (.ok (), true, [AuthEvent.loginPost])

/-- `n` sequential calls of `authenticate` against the same transport
behaviour, accumulating the final flag and the concatenated event trace. -/
def authenticateN (taxonomy : List Nat) : Nat → Bool → Response →
    Bool × List AuthEvent
  | 0, st, _ => (st, [])
  | n + 1, st, resp =>
    let r := authenticate taxonomy st resp
    let rest := authenticateN taxonomy n r.2.1 resp
    (rest.1, r.2.2 ++ rest.2)

/-! ## `generic_request` (aio.py lines 61-164) -/

/-- Errors raised by `generic_request` before the query GET.  The Python code
raises `ValueError` for the first three (configuration errors) and
`TypeError` for the last (the unexpected-argument error naming the offending
key and the request class). -/
inductive QueryError where
  | bothIterFlags
  | unknownRequestClass (cls : String)
  | iterLinesBinary
  | unexpectedArgument (cls key : String)
  deriving DecidableEq, Repr

/-- The consumption mode picked at the end of `generic_request`. -/
inductive QueryMode where
  | lineStream
  | chunkStream
  | buffered
  deriving DecidableEq, Repr

/-- Result of a validated query: the built URL, the chosen consumption mode
and the `decode` flag (`class_ != 'download'`). -/
structure QueryPlan where
  url : String
  mode : QueryMode
  decode : Bool
  deriving DecidableEq, Repr

/-- Steps of `generic_request` that may reach the network: the
`authenticate()` call, the `get_predicates` fetch, and the rate-limited query
GET itself. -/
inductive ReqEvent where
  | authenticateStep
  | fetchPredicates
  | queryGet (url : String)
  deriving DecidableEq, Repr

/-- The keyword loop of `generic_request`: each key is checked against the
valid field set; the first key outside it raises the unexpected-argument
error, otherwise `/key/value` (value stringified) is appended to the URL. -/
def buildSegments {α : Type} (stringify : α → String) (cls : String)
    (validFields : List String) : List (String × α) → String →
    Except QueryError String
  | [], url => .ok url
  | (key, value) :: rest, url =>
    if validFields.contains key then
      buildSegments stringify cls validFields rest
        (url ++ "/" ++ key ++ "/" ++ stringify value)
    else
      .error (.unexpectedArgument cls key)

/-- Embedding of `AsyncSpaceTrackClient.generic_request` up to the issuing of
the query GET.  `requestClasses` maps request-class names to controllers
(`self.request_classes`, data from the base class), `predicateNames` is
`{p.name for p in await self.get_predicates(class_)}` and
`restPredicateNames` is `{p.name for p in self.rest_predicates}`;
`stringify` is `operators._stringify_predicate_value`.  `kwargs` is the
keyword mapping in call order.  Returns the outcome and the trace of
network-reaching steps. -/
def genericRequest {α : Type} (baseUrl : String)
    (requestClasses : List (String × String))
    (predicateNames restPredicateNames : List String)
    (stringify : α → String) (cls : String) (iterLines iterContent : Bool)
    (kwargs : List (String × α)) :
    Except QueryError QueryPlan × List ReqEvent :=
  if iterLines && iterContent then
    (.error .bothIterFlags, [])
  else
    match requestClasses.lookup cls with
    | none => (.error (.unknownRequestClass cls), [])
    | some controller =>
      let decode : Bool := cls != "download"
      if !decode && iterLines then
        (.error .iterLinesBinary, [])
      else
        let url0 := baseUrl ++ controller ++ "/query/class/" ++ cls
        let validFields := predicateNames ++ restPredicateNames
        match buildSegments stringify cls validFields kwargs url0 with
        | .error e => (.error e, [ReqEvent.authenticateStep, ReqEvent.fetchPredicates])
        | .ok url =>
          let mode := if iterLines then QueryMode.lineStream
                      else if iterContent then QueryMode.chunkStream
                      else QueryMode.buffered
          (.ok ⟨url, mode, decode⟩,
           [ReqEvent.authenticateStep, ReqEvent.fetchPredicates,
            ReqEvent.queryGet url])

/-- The data returned by `generic_request` in buffered mode. -/
inductive BufferedData where
  | parsed (j : Option JValue)
  | text (s : List Char)
  | bytes (b : List Nat)

/-- Embedding of the buffered tail of `generic_request` (lines 151-164):
with a `format` keyword present the body is returned raw — as text with
`data.replace('\r', '')` applied when `decode` is set, as untouched bytes
otherwise — and with no `format` keyword the parsed JSON body is returned. -/
def bufferedResult (decode formatRequested : Bool) (bodyText : List Char)
    (bodyBytes : List Nat) (jsonBody : Option JValue) : BufferedData :=
  if formatRequested then
    if decode then .text (bodyText.filter (fun c => c ≠ '\r'))
    else .bytes bodyBytes
  else .parsed jsonBody

/-- The CRLF→LF normalization the spec describes (and the chunk iterator
implements as `data.replace('\r\n', '\n')`): every carriage-return/line-feed
pair becomes a single line-feed and nothing else is altered. -/
def replaceCRLF : List Char → List Char
  | [] => []
  | '\r' :: '\n' :: rest => '\n' :: replaceCRLF rest
  | c :: rest => c :: replaceCRLF rest

/-! ## The streaming iterators (aio.py lines 232-283) -/

/-- Python's `s.rstrip(bad)`: remove from the right end every character that
belongs to `bad`. -/
def rstripChars (bad : List Char) (l : List Char) : List Char :=
  ((l.reverse).dropWhile (fun c => bad.contains c)).reverse

/-- `endsWithChar c l` holds when the last character of `l` is `c`. -/
def endsWithChar (c : Char) (l : List Char) : Bool :=
  match l.getLast? with
  | some d => d == c
  | none => false

/-- Split a character list at every occurrence of the separator. -/
def splitOnChar (sep : Char) : List Char → List (List Char)
  | [] => [[]]
  | c :: rest =>
    let r := splitOnChar sep rest
    if c = sep then [] :: r
    else
      match r with
      | [] => [[c]]
      | h :: t => (c :: h) :: t

/-- Python's `str.strip()` on a character list: drop whitespace from both
ends. -/
def trimChars (l : List Char) : List Char :=
  ((l.dropWhile Char.isWhitespace).reverse.dropWhile Char.isWhitespace).reverse

/-- Embedding of the mime-type parameter parsing done by
`aiohttp.helpers.parse_mimetype` (external collaborator).
Modelled from the spec: the charset is "parsed from the content-type
header's charset parameter, defaulting to UTF-8 when absent or unparsable" —
parameters after the first `;`-separated part are `key=value` items with
surrounding whitespace stripped, and an item that is not of that shape is
ignored. -/
def mimeTypeParams (ctype : List Char) : List (List Char × List Char) :=
  match splitOnChar ';' ctype with
  | [] => []
  | _ :: rest =>
    rest.filterMap (fun item =>
      match splitOnChar '=' item with
      | [k, v] => some (trimChars k, trimChars v)
      | _ => none)

/-- `get_encoding` of the iterator mixin (aio.py lines 238-243): the
lower-cased `content-type` header is parsed for mime-type parameters and the
`charset` parameter is returned, falling back to `UTF-8`.  `headers` is the
response header list; a missing `content-type` header reads as the empty
string. -/
def getEncoding (headers : List (String × String)) : String :=
  let ctype := (((headers.lookup "content-type").getD "").data).map Char.toLower
  match (mimeTypeParams ctype).lookup "charset".data with
  | some enc => String.mk enc
  | none => "UTF-8"

/-- A unit yielded by one of the asynchronous iterators: decoded text or the
raw bytes when decoding is off. -/
inductive StreamData where
  | text (s : List Char)
  | bytes (b : List Nat)

/-- Embedding of `_AsyncLineIterator.__anext__` on one unit pulled from the
transport: when `decode_unicode` is set the raw bytes are decoded with the
detected encoding (`dec` is the external charset decoder) and trailing
`'\r'`/`'\n'` characters are stripped (`data.rstrip('\r\n')`). -/
def lineIterNext (decodeUnicode : Bool) (dec : String → List Nat → String)
    (headers : List (String × String)) (raw : List Nat) : StreamData :=
  if decodeUnicode then
    .text (rstripChars ['\r', '\n'] (dec (getEncoding headers) raw).data)
  else
    .bytes raw

/-- Embedding of `_AsyncChunkIterator.__anext__` on one chunk pulled from the
transport: when `decode_unicode` is set the chunk is decoded with the
detected encoding, CRLF pairs are replaced by LF
(`data.replace('\r\n', '\n')`) and trailing carriage returns are stripped
(`data.rstrip('\r')`). -/
def chunkIterNext (decodeUnicode : Bool) (dec : String → List Nat → String)
    (headers : List (String × String)) (raw : List Nat) : StreamData :=
  if decodeUnicode then
    .text (rstripChars ['\r']
      (replaceCRLF (dec (getEncoding headers) raw).data))
  else
    .bytes raw

/-- The default chunk size of `_AsyncChunkIterator` (`chunk_size=100 * 1024`). -/
def defaultChunkSize : Nat := 100 * 1024

/-- The connection state an iterator drives: the units the transport still
has pending and whether the response connection has been closed
(`self.response.close()`). -/
structure StreamConn where
  pending : List (List Nat)
  closed : Bool
  deriving DecidableEq, Repr

/-- One `__anext__` step of either iterator, seen at the transport level:
pulling from an exhausted transport raises `StopAsyncIteration`, whose
handler closes the response (`self.response.close()`) and re-raises;
otherwise the next unit is consumed and the connection stays as it was. -/
def streamNext (s : StreamConn) : Option (List Nat) × StreamConn :=
  match s.pending with
  | [] => (none, { s with closed := true })
  | c :: rest => (some c, { s with pending := rest })

/-- `n` consecutive `__anext__` steps; the consumer abandoning the sequence
after that is modelled by simply not stepping further. -/
def streamPulls : Nat → StreamConn → List (Option (List Nat)) × StreamConn
  | 0, s => ([], s)
  | n + 1, s =>
    let r := streamNext s
    let rest := streamPulls n r.2
    (r.1 :: rest.1, rest.2)

/-- The first keyword (in call order) whose name lies outside the valid field
set: the keyword the loop in `generic_request` raises on. -/
def firstInvalidKey {α : Type} (validFields : List String) :
    List (String × α) → Option String
  | [] => none
  | (key, _) :: rest =>
    if validFields.contains key then firstInvalidKey validFields rest
    else some key

/-- The reason composition the spec describes for the error mapper: the
status reason phrase, extended with the service-supplied `error` field when
the body parses as a mapping carrying one (a present-but-empty field reads
as no service message — Python falsiness — and falls back like an absent
one), otherwise with the raw response text when that is non-empty. -/
def specReason (resp : Response) : String :=
  match errorField resp.jsonBody with
  | some e =>
    if e ≠ "" then resp.reason ++ "\nSpace-Track response:\n" ++ e
    else if resp.bodyText ≠ "" then
      resp.reason ++ "\nSpace-Track response:\n" ++ resp.bodyText
    else resp.reason
  | none =>
    if resp.bodyText ≠ "" then
      resp.reason ++ "\nSpace-Track response:\n" ++ resp.bodyText
    else resp.reason

/-! ## Helper lemmas -/

theorem stringDataExt (a b : String) (h : a.data = b.data) : a = b := by
  cases a
  cases b
  exact congrArg String.mk h

theorem head_dropWhile_not {α : Type} (p : α → Bool) (l : List α) :
    ∀ a, (l.dropWhile p).head? = some a → p a = false := by
  induction l with
  | nil => intro a h; simp [List.dropWhile_nil] at h
  | cons x t ih =>
    intro a h
    rw [List.dropWhile_cons] at h
    by_cases hx : p x = true
    · exact ih a (by simpa [hx] using h)
    · rw [if_neg hx, List.head?_cons] at h
      injection h with h
      subst h
      cases hpx : p x
      · rfl
      · exact absurd hpx hx

theorem endsWithChar_rstripChars (bad : List Char) (c : Char)
    (hc : bad.contains c = true) (l : List Char) :
    endsWithChar c (rstripChars bad l) = false := by
  unfold endsWithChar rstripChars
  rw [List.getLast?_reverse]
  cases hh : (l.reverse.dropWhile fun d => bad.contains d).head? with
  | none => rfl
  | some a =>
    have ha : bad.contains a = false := head_dropWhile_not _ _ a hh
    have hne : a ≠ c := by
      intro he
      rw [he, hc] at ha
      cases ha
    exact beq_eq_false_iff_ne.mpr hne

theorem authenticateN_true (taxonomy : List Nat) (resp : Response) :
    ∀ n, authenticateN taxonomy n true resp = (true, []) := by
  intro n
  induction n with
  | zero => rfl
  | succ m ih => simp [authenticateN, authenticate, ih]

theorem raiseForStatus_error_shape (taxonomy : List Nat) (r : Response)
    (e : ClientError) (h : raiseForStatus taxonomy r = .error e) :
    ∃ st rsn, e = ClientError.httpError st rsn := by
  rw [raiseForStatus] at h
  repeat' split at h
  all_goals
    first
      | (injection h with h; exact ⟨_, _, h.symm⟩)
      | exact absurd h (by simp)

theorem isLoginFailed_eq_true (j : JValue) (h : isLoginFailed j = true) :
    ∃ fields, j = JValue.jobj fields ∧
      fields.lookup "Login" = some (JValue.jstr "Failed") := by
  cases j with
  | jobj fields =>
    refine ⟨fields, rfl, ?_⟩
    simp only [isLoginFailed] at h
    cases hlk : fields.lookup "Login" with
    | none =>
      rw [hlk] at h
      exact absurd h (by simp)
    | some v =>
      rw [hlk] at h
      cases v with
      | jstr s =>
        have hs : s = "Failed" := by simpa using h
        rw [hs]
      | jnull => exact absurd h (by simp)
      | jbool b => exact absurd h (by simp)
      | jnum m => exact absurd h (by simp)
      | jarr es => exact absurd h (by simp)
      | jobj fs => exact absurd h (by simp)
  | jnull => simp [isLoginFailed] at h
  | jbool b => simp [isLoginFailed] at h
  | jnum m => simp [isLoginFailed] at h
  | jstr s => simp [isLoginFailed] at h
  | jarr es => simp [isLoginFailed] at h

theorem buildSegments_ok {α : Type} (stringify : α → String) (cls : String)
    (validFields : List String) :
    ∀ (kwargs : List (String × α)) (url : String),
      (∀ p ∈ kwargs, validFields.contains p.1 = true) →
      buildSegments stringify cls validFields kwargs url =
        .ok (url ++ String.join (kwargs.map fun kv =>
          "/" ++ kv.1 ++ "/" ++ stringify kv.2)) := by
  intro kwargs
  induction kwargs with
  | nil =>
    intro url h
    rw [buildSegments]
    congr 1
    apply stringDataExt
    simp [String.data_append, String.join_eq]
  | cons kv rest ih =>
    intro url h
    obtain ⟨k, v⟩ := kv
    have hk : validFields.contains k = true := h (k, v) (by simp)
    rw [buildSegments, if_pos hk, ih _ (fun p hp => h p (by simp [hp]))]
    congr 1
    apply stringDataExt
    simp [String.data_append, String.join_eq]

theorem buildSegments_err {α : Type} (stringify : α → String) (cls : String)
    (validFields : List String) :
    ∀ (kwargs : List (String × α)) (url : String) (k : String),
      firstInvalidKey validFields kwargs = some k →
      buildSegments stringify cls validFields kwargs url =
        .error (.unexpectedArgument cls k) := by
  intro kwargs
  induction kwargs with
  | nil => intro url k h; simp [firstInvalidKey] at h
  | cons kv rest ih =>
    intro url k h
    obtain ⟨k0, v0⟩ := kv
    by_cases hk : validFields.contains k0 = true
    · rw [firstInvalidKey, if_pos hk] at h
      rw [buildSegments, if_pos hk]
      exact ih _ k h
    · rw [firstInvalidKey, if_neg hk] at h
      injection h with h
      subst h
      rw [buildSegments, if_neg hk]

theorem firstInvalidKey_spec {α : Type} (validFields : List String) :
    ∀ (kwargs : List (String × α)) (k : String),
      firstInvalidKey validFields kwargs = some k →
      k ∈ kwargs.map Prod.fst ∧ validFields.contains k = false := by
  intro kwargs
  induction kwargs with
  | nil => intro k h; simp [firstInvalidKey] at h
  | cons kv rest ih =>
    intro k h
    obtain ⟨k0, v0⟩ := kv
    by_cases hk : validFields.contains k0 = true
    · rw [firstInvalidKey, if_pos hk] at h
      obtain ⟨hm, hc⟩ := ih k h
      exact ⟨by simp [hm], hc⟩
    · rw [firstInvalidKey, if_neg hk] at h
      injection h with h
      subst h
      refine ⟨by simp, ?_⟩
      simpa using hk

theorem firstInvalidKey_isSome {α : Type} (validFields : List String) :
    ∀ (kwargs : List (String × α)) (p : String × α),
      p ∈ kwargs → validFields.contains p.1 = false →
      ∃ k, firstInvalidKey validFields kwargs = some k := by
  intro kwargs
  induction kwargs with
  | nil => intro p hp; simp at hp
  | cons kv rest ih =>
    intro p hp hbad
    obtain ⟨k0, v0⟩ := kv
    by_cases hk : validFields.contains k0 = true
    · rcases List.mem_cons.mp hp with hph | hpt
      · exfalso
        rw [hph] at hbad
        rw [hbad] at hk
        cases hk
      · obtain ⟨k, hfk⟩ := ih p hpt hbad
        exact ⟨k, by rw [firstInvalidKey, if_pos hk]; exact hfk⟩
    · exact ⟨k0, by rw [firstInvalidKey, if_neg hk]⟩

/-! ## Claim theorems -/

/-- C1: for every GET through `_ratelimited_get`, a first response with
status exactly 500 whose body contains the rate-limit-violation marker makes
the wrapper fire the rate-limit callback with `now + period`, sleep one full
period, re-acquire the limiter and retry the GET exactly once, returning the
second response regardless of its status; any first response whose status is
not 500 or whose body lacks the marker is returned unchanged after the single
initial acquire/GET, with no retry. -/
theorem c1_ratelimited_get_single_retry (period now : Nat)
    (resp1 resp2 : Response) :
    (resp1.status = 500 →
      hasSubstring rateLimitMarker.data resp1.bodyText.data = true →
      ratelimitedGet period now resp1 resp2 =
        (resp2,
         [GetEvent.acquire, GetEvent.httpGet 0,
          GetEvent.fireCallback (now + period), GetEvent.sleep period,
          GetEvent.acquire, GetEvent.httpGet 1])) ∧
    (¬(resp1.status = 500 ∧
        hasSubstring rateLimitMarker.data resp1.bodyText.data = true) →
      ratelimitedGet period now resp1 resp2 =
        (resp1, [GetEvent.acquire, GetEvent.httpGet 0])) := by
  constructor
  · intro h1 h2
    simp [ratelimitedGet, h1, h2]
  · intro h
    have hcond : (resp1.status == 500 &&
        hasSubstring rateLimitMarker.data resp1.bodyText.data) = false := by
      rw [Bool.and_eq_false_iff]
      by_cases hs : resp1.status = 500
      · right
        by_cases hm : hasSubstring rateLimitMarker.data resp1.bodyText.data = true
        · exact absurd ⟨hs, hm⟩ h
        · simpa using hm
      · left
        simpa using hs
    simp [ratelimitedGet, hcond]

/-- Witness for C1 at concrete inputs: a marked 500 retried once (the second
500 is returned as-is), and an unmarked 500 returned without retry. -/
theorem c1_ratelimited_get_single_retry_witness :
    ratelimitedGet 60 1000
        ⟨500, "Internal Server Error",
         "You have violated your query rate limit", none⟩
        ⟨500, "Internal Server Error", "still broken", none⟩ =
      (⟨500, "Internal Server Error", "still broken", none⟩,
       [GetEvent.acquire, GetEvent.httpGet 0, GetEvent.fireCallback 1060,
        GetEvent.sleep 60, GetEvent.acquire, GetEvent.httpGet 1]) ∧
    ratelimitedGet 60 1000
        ⟨500, "Internal Server Error", "unrelated failure", none⟩
        ⟨200, "OK", "", none⟩ =
      (⟨500, "Internal Server Error", "unrelated failure", none⟩,
       [GetEvent.acquire, GetEvent.httpGet 0]) :=
  ⟨(c1_ratelimited_get_single_retry 60 1000 _ _).1 rfl (by decide),
   (c1_ratelimited_get_single_retry 60 1000 _ _).2 (by decide)⟩

/-- C3: calling `authenticate` `n ≥ 1` times in sequence against a
successful login response performs exactly one login POST and leaves the
authenticated flag true; once authenticated, a call performs no network
event and the flag never reverts; a login response with the
`{'Login': 'Failed'}` marker (and a non-error status, so that the marker and
not the status decides) always raises `AuthenticationError` and leaves the
flag false. -/
theorem c3_authenticate_exactly_one_login (taxonomy : List Nat)
    (resp : Response) (j : JValue) (n : Nat) (hn : 1 ≤ n)
    (hstatus : ¬(400 ≤ resp.status ∧ resp.status < 600))
    (hjson : resp.jsonBody = some j) (hok : isLoginFailed j = false) :
    authenticateN taxonomy n false resp = (true, [AuthEvent.loginPost]) ∧
    (∀ resp2 : Response,
      authenticate taxonomy true resp2 = (.ok (), true, [])) ∧
    (∀ (resp3 : Response) (j3 : JValue),
      ¬(400 ≤ resp3.status ∧ resp3.status < 600) →
      resp3.jsonBody = some j3 → isLoginFailed j3 = true →
      authenticate taxonomy false resp3 =
        (.error .authenticationError, false, [AuthEvent.loginPost])) := by
  have hraise : ∀ r : Response, ¬(400 ≤ r.status ∧ r.status < 600) →
      raiseForStatus taxonomy r = .ok () := by
    intro r hr
    simp [raiseForStatus, hr]
  refine ⟨?_, ?_, ?_⟩
  · obtain ⟨m, rfl⟩ : ∃ m, n = m + 1 := by
      cases n with
      | zero => exact absurd hn (by simp)
      | succ m => exact ⟨m, rfl⟩
    have hstep : authenticate taxonomy false resp =
        (.ok (), true, [AuthEvent.loginPost]) := by
      simp [authenticate, hraise resp hstatus, hjson, hok]
    simp [authenticateN, hstep, authenticateN_true]
  · intro resp2
    simp [authenticate]
  · intro resp3 j3 h3 hj3 hfail
    simp [authenticate, hraise resp3 h3, hj3, hfail]

/-- Witness for C3: three sequential calls against a successful empty-mapping
login response perform exactly one login POST and authenticate the session;
the `Failed` marker raises `AuthenticationError` and leaves the flag false. -/
theorem c3_authenticate_exactly_one_login_witness :
    authenticateN aiohttpStatusCodes 3 false
        ⟨200, "OK", "{}", some (.jobj [])⟩ =
      (true, [AuthEvent.loginPost]) ∧
    authenticate aiohttpStatusCodes false
        ⟨200, "OK", "", some (.jobj [("Login", .jstr "Failed")])⟩ =
      (.error .authenticationError, false, [AuthEvent.loginPost]) :=
  ⟨(c3_authenticate_exactly_one_login aiohttpStatusCodes _ (.jobj []) 3
      (by decide) (by decide) rfl rfl).1,
   (c3_authenticate_exactly_one_login aiohttpStatusCodes
      ⟨200, "OK", "{}", some (.jobj [])⟩ (.jobj []) 3
      (by decide) (by decide) rfl rfl).2.2
      ⟨200, "OK", "", some (.jobj [("Login", .jstr "Failed")])⟩
      (.jobj [("Login", .jstr "Failed")]) (by decide) rfl rfl⟩

/-- C10: `authenticate` raises `AuthenticationError` only for a body parsing
to a mapping whose `Login` entry equals `Failed`; a login response with a
non-error status whose body parses as JSON that is not a mapping (for
example an array) marks the session authenticated and raises nothing. -/
theorem c10_authentication_error_only_for_failed_mapping (taxonomy : List Nat)
    (resp : Response) (j : JValue)
    (hstatus : ¬(400 ≤ resp.status ∧ resp.status < 600))
    (hjson : resp.jsonBody = some j) (hnotmap : j.isObj = false) :
    authenticate taxonomy false resp = (.ok (), true, [AuthEvent.loginPost]) ∧
    (∀ (st : Bool) (resp2 : Response),
      (authenticate taxonomy st resp2).1 = .error .authenticationError →
      ∃ fields, resp2.jsonBody = some (.jobj fields) ∧
        fields.lookup "Login" = some (.jstr "Failed")) := by
  constructor
  · have hok : isLoginFailed j = false := by
      cases j <;> simp_all [isLoginFailed, JValue.isObj]
    have hraise : raiseForStatus taxonomy resp = .ok () := by
      simp [raiseForStatus, hstatus]
    simp [authenticate, hraise, hjson, hok]
  · intro st resp2 herr
    cases st with
    | true => simp [authenticate] at herr
    | false =>
      cases hr : raiseForStatus taxonomy resp2 with
      | error e =>
        have hres : (authenticate taxonomy false resp2).1 = .error e := by
          simp [authenticate, hr]
        rw [hres] at herr
        injection herr with he
        obtain ⟨st', rsn, hsh⟩ := raiseForStatus_error_shape taxonomy resp2 e hr
        subst he
        exact ClientError.noConfusion hsh
      | ok u =>
        cases u
        cases hjb : resp2.jsonBody with
        | none =>
          have hres : (authenticate taxonomy false resp2).1 =
              .error .jsonDecodeError := by
            simp [authenticate, hr, hjb]
          rw [hres] at herr
          injection herr with he
          exact ClientError.noConfusion he
        | some j2 =>
          by_cases hf : isLoginFailed j2 = true
          · obtain ⟨fields, hfe, hlk⟩ := isLoginFailed_eq_true j2 hf
            subst hfe
            exact ⟨fields, rfl, hlk⟩
          · have hf' : isLoginFailed j2 = false := by simpa using hf
            have hres : (authenticate taxonomy false resp2).1 = .ok () := by
              simp [authenticate, hr, hjb, hf']
            rw [hres] at herr
            cases herr

/-- Witness for C10: a JSON-array login body with status 200 authenticates
the session without error. -/
theorem c10_authentication_error_only_for_failed_mapping_witness :
    authenticate aiohttpStatusCodes false ⟨200, "OK", "[]", some (.jarr [])⟩ =
      (.ok (), true, [AuthEvent.loginPost]) :=
  (c10_authentication_error_only_for_failed_mapping aiohttpStatusCodes
    ⟨200, "OK", "[]", some (.jarr [])⟩ (.jarr []) (by decide) rfl rfl).1

/-- C4, evaluated at the failing input: with a `format` keyword and a
text-bearing class the code runs `data.replace('\r', '')`, which removes a
carriage return that is not part of a CR/LF pair (body `"a\rb"` comes back
as `"ab"`), whereas the claimed CRLF→LF normalization leaves `"a\rb"`
unchanged.  The other branches match the claim: with no `format` keyword the
parsed JSON body is returned, and the binary class's body is returned as
untouched bytes. -/
theorem c4_buffered_raw_text_strips_every_cr :
    bufferedResult true true ("a\rb".data) [] none = .text ("ab".data) ∧
    replaceCRLF ("a\rb".data) = "a\rb".data ∧
    ("ab".data ≠ "a\rb".data) ∧
    bufferedResult true false ("a\rb".data) [] (some (.jarr [])) =
      .parsed (some (.jarr [])) ∧
    bufferedResult false true ("x".data) [104, 105] none = .bytes [104, 105] :=
  ⟨rfl, rfl, by decide, rfl, rfl⟩

/-- C6 counterexample: a consumer that pulls one unit and then abandons the
stream (two units were pending) leaves the connection open — nothing in the
iterators closes the response before exhaustion. -/
theorem c6_counterexample_abandoned_stream_stays_open :
    (streamPulls 1 ⟨[[65], [66]], false⟩).2.closed = false ∧
    (streamPulls 1 ⟨[[65], [66]], false⟩).2.pending ≠ [] :=
  ⟨rfl, by decide⟩

/-- C6 as amended: reaching exhaustion closes the underlying connection, and
once exhausted re-iterating yields no further elements and never re-opens
the connection; but abandoning the sequence before exhaustion does NOT close
the connection — the iterator only closes on the `StopAsyncIteration` path,
so an abandoned open stream stays open. -/
theorem c6_stream_close_on_exhaustion_only (s : StreamConn) (n : Nat)
    (hsx : s.pending = []) :
    streamNext s = (none, { s with closed := true }) ∧
    streamPulls n ⟨[], true⟩ = (List.replicate n none, ⟨[], true⟩) ∧
    (∀ (pend : List (List Nat)) (m : Nat),
      (streamPulls m ⟨pend, false⟩).2.pending ≠ [] →
      (streamPulls m ⟨pend, false⟩).2.closed = false) := by
  refine ⟨?_, ?_, ?_⟩
  · simp [streamNext, hsx]
  · induction n with
    | zero => rfl
    | succ m ih =>
      simp [streamPulls, streamNext, ih, List.replicate_succ]
  · intro pend m
    induction m generalizing pend with
    | zero => intro _; rfl
    | succ k ih =>
      intro h
      cases pend with
      | nil =>
        exfalso
        apply h
        have hex : ∀ j, streamPulls j (⟨[], true⟩ : StreamConn) =
            (List.replicate j none, ⟨[], true⟩) := by
          intro j
          induction j with
          | zero => rfl
          | succ i ihj =>
            simp [streamPulls, streamNext, ihj, List.replicate_succ]
        simp [streamPulls, streamNext, hex]
      | cons c rest =>
        simp only [streamPulls, streamNext] at h ⊢
        exact ih rest h

/-- Witness for C6's amended theorem: exhausting a one-unit stream closes the
connection, and two further pulls yield nothing and leave it closed. -/
theorem c6_stream_close_on_exhaustion_only_witness :
    streamNext ⟨[], false⟩ = (none, ⟨[], true⟩) ∧
    streamPulls 2 ⟨[], true⟩ = ([none, none], ⟨[], true⟩) ∧
    (streamPulls 1 ⟨[[65], [66]], false⟩).2.closed = false :=
  ⟨(c6_stream_close_on_exhaustion_only ⟨[], false⟩ 2 rfl).1,
   (c6_stream_close_on_exhaustion_only ⟨[], false⟩ 2 rfl).2.1,
   (c6_stream_close_on_exhaustion_only ⟨[], false⟩ 2 rfl).2.2 [[65], [66]] 1
     (by decide)⟩

/-- C7: a chunk-stream step with decoding enabled decodes the chunk with the
detected encoding, replaces every CR/LF pair with a single LF and strips the
orphaned trailing carriage returns, so no yielded decoded chunk ends with a
carriage return; the default chunk size is 100 KiB. -/
theorem c7_chunk_stream_decoding (dec : String → List Nat → String)
    (headers : List (String × String)) (raw : List Nat) :
    chunkIterNext true dec headers raw =
      .text (rstripChars ['\r']
        (replaceCRLF (dec (getEncoding headers) raw).data)) ∧
    (∀ l : List Char, endsWithChar '\r' (rstripChars ['\r'] l) = false) ∧
    defaultChunkSize = 100 * 1024 :=
  ⟨rfl, fun l => endsWithChar_rstripChars ['\r'] '\r' (by decide) l, rfl⟩

/-- C8: a line-stream step decodes the unit with the encoding from the
content-type header's charset parameter (lower-cased header; `UTF-8` when the
header or the parameter is absent or unparsable) and strips every trailing
carriage-return and line-feed character, so no yielded line ends in CR or
LF. -/
theorem c8_line_stream_decoding (dec : String → List Nat → String)
    (headers : List (String × String)) (raw : List Nat) :
    lineIterNext true dec headers raw =
      .text (rstripChars ['\r', '\n'] (dec (getEncoding headers) raw).data) ∧
    (∀ l : List Char,
      endsWithChar '\r' (rstripChars ['\r', '\n'] l) = false ∧
      endsWithChar '\n' (rstripChars ['\r', '\n'] l) = false) ∧
    getEncoding [("content-type", "text/plain; charset=ISO-8859-1")] =
      "iso-8859-1" ∧
    getEncoding [("content-type", "text/plain")] = "UTF-8" ∧
    getEncoding [("content-type", "text/plain; charset")] = "UTF-8" ∧
    getEncoding [] = "UTF-8" :=
  ⟨rfl,
   fun l => ⟨endsWithChar_rstripChars ['\r', '\n'] '\r' (by decide) l,
             endsWithChar_rstripChars ['\r', '\n'] '\n' (by decide) l⟩,
   rfl, rfl, rfl, rfl⟩

/-- C9: requesting line-streaming and chunk-streaming together always fails
with the configuration error before any network-reaching step, for every
request class; requesting line-streaming for the binary `download` class
also always fails with a configuration error before any network-reaching
step. -/
theorem c9_stream_mode_validation {α : Type} (baseUrl : String)
    (requestClasses : List (String × String))
    (predicateNames restPredicateNames : List String)
    (stringify : α → String) (controller : String)
    (hdl : requestClasses.lookup "download" = some controller) :
    (∀ (cls : String) (kwargs : List (String × α)),
      genericRequest baseUrl requestClasses predicateNames restPredicateNames
        stringify cls true true kwargs = (.error .bothIterFlags, [])) ∧
    (∀ kwargs : List (String × α),
      genericRequest baseUrl requestClasses predicateNames restPredicateNames
        stringify "download" true false kwargs =
        (.error .iterLinesBinary, [])) := by
  constructor
  · intro cls kwargs
    simp [genericRequest]
  · intro kwargs
    simp [genericRequest, hdl]

/-- Witness for C9: with a one-entry class table containing `download`, both
rejections happen with an empty event trace. -/
theorem c9_stream_mode_validation_witness :
    genericRequest "b/" [("download", "basicspacedata")] [] []
      (fun v : String => v) "tle" true true [] =
      (.error .bothIterFlags, []) ∧
    genericRequest "b/" [("download", "basicspacedata")] [] []
      (fun v : String => v) "download" true false [] =
      (.error .iterLinesBinary, []) :=
  ⟨(c9_stream_mode_validation "b/" [("download", "basicspacedata")] [] []
      (fun v : String => v) "basicspacedata" rfl).1 "tle" [],
   (c9_stream_mode_validation "b/" [("download", "basicspacedata")] [] []
      (fun v : String => v) "basicspacedata" rfl).2 []⟩

/-- C2: with a known request class, a keyword mapping containing a name
outside the union of the class's predicate names and the rest-predicate
names makes the query fail with the unexpected-argument error naming an
offending key and the class, regardless of the values; a mapping whose names
all lie in that union yields the URL `base ++ controller ++ "/query/class/"
++ class` extended with one `/fieldName/value` segment (value stringified)
per keyword, in call order. -/
theorem c2_generic_request_url_and_validation {α : Type}
    (baseUrl controller : String) (requestClasses : List (String × String))
    (predicateNames restPredicateNames : List String)
    (stringify : α → String) (cls : String) (kwargs : List (String × α))
    (hcls : requestClasses.lookup cls = some controller) :
    ((∃ p ∈ kwargs,
        (predicateNames ++ restPredicateNames).contains p.1 = false) →
      ∃ badKey, badKey ∈ kwargs.map Prod.fst ∧
        (predicateNames ++ restPredicateNames).contains badKey = false ∧
        (genericRequest baseUrl requestClasses predicateNames
          restPredicateNames stringify cls false false kwargs).1 =
          .error (.unexpectedArgument cls badKey)) ∧
    ((∀ p ∈ kwargs,
        (predicateNames ++ restPredicateNames).contains p.1 = true) →
      genericRequest baseUrl requestClasses predicateNames restPredicateNames
          stringify cls false false kwargs =
        (.ok ⟨baseUrl ++ controller ++ "/query/class/" ++ cls ++
            String.join (kwargs.map fun kv =>
              "/" ++ kv.1 ++ "/" ++ stringify kv.2),
          .buffered, cls != "download"⟩,
         [ReqEvent.authenticateStep, ReqEvent.fetchPredicates,
          ReqEvent.queryGet (baseUrl ++ controller ++ "/query/class/" ++ cls
            ++ String.join (kwargs.map fun kv =>
              "/" ++ kv.1 ++ "/" ++ stringify kv.2))])) := by
  constructor
  · intro hex
    obtain ⟨p, hp, hbad⟩ := hex
    obtain ⟨k, hfk⟩ :=
      firstInvalidKey_isSome (predicateNames ++ restPredicateNames) kwargs
        p hp hbad
    obtain ⟨hmem, hcont⟩ :=
      firstInvalidKey_spec (predicateNames ++ restPredicateNames) kwargs k hfk
    refine ⟨k, hmem, hcont, ?_⟩
    have hb := buildSegments_err stringify cls
      (predicateNames ++ restPredicateNames) kwargs
      (baseUrl ++ controller ++ "/query/class/" ++ cls) k hfk
    simp [genericRequest, hcls, hb]
  · intro hall
    have hb := buildSegments_ok stringify cls
      (predicateNames ++ restPredicateNames) kwargs
      (baseUrl ++ controller ++ "/query/class/" ++ cls) hall
    simp [genericRequest, hcls, hb]

/-- Witness for C2: a valid two-keyword query builds the segmented URL in
call order, and a bogus keyword is rejected naming key and class. -/
theorem c2_generic_request_url_and_validation_witness :
    genericRequest "https://www.space-track.org/"
      [("tle", "basicspacedata")] ["NORAD_CAT_ID", "EPOCH"]
      ["orderby", "limit", "format"] (fun v : String => v) "tle" false false
      [("NORAD_CAT_ID", "25544"), ("limit", "1")] =
      (.ok ⟨"https://www.space-track.org/basicspacedata/query/class/tle/NORAD_CAT_ID/25544/limit/1",
        .buffered, true⟩,
       [ReqEvent.authenticateStep, ReqEvent.fetchPredicates,
        ReqEvent.queryGet
          "https://www.space-track.org/basicspacedata/query/class/tle/NORAD_CAT_ID/25544/limit/1"]) ∧
    (genericRequest "https://www.space-track.org/"
      [("tle", "basicspacedata")] ["NORAD_CAT_ID", "EPOCH"]
      ["orderby", "limit", "format"] (fun v : String => v) "tle" false false
      [("bogus", "1")]).1 = .error (.unexpectedArgument "tle" "bogus") := by
  constructor
  · exact (c2_generic_request_url_and_validation "https://www.space-track.org/"
      "basicspacedata" [("tle", "basicspacedata")] ["NORAD_CAT_ID", "EPOCH"]
      ["orderby", "limit", "format"] (fun v : String => v) "tle"
      [("NORAD_CAT_ID", "25544"), ("limit", "1")] rfl).2 (by decide)
  · obtain ⟨badKey, hmem, _, heq⟩ :=
      (c2_generic_request_url_and_validation "https://www.space-track.org/"
        "basicspacedata" [("tle", "basicspacedata")] ["NORAD_CAT_ID", "EPOCH"]
        ["orderby", "limit", "format"] (fun v : String => v) "tle"
        [("bogus", "1")] rfl).1 ⟨("bogus", "1"), by simp, by decide⟩
    have hb : badKey = "bogus" := by
      simpa using hmem
    rw [hb] at heq
    exact heq

/-- C5 counterexample: status 599 lies in [400, 600) but has no matching
exception class in `aiohttp.web_exceptions`, and `_raise_for_status` returns
normally instead of raising an error. -/
theorem c5_counterexample_unmapped_status_returns_normally :
    400 ≤ (599 : Nat) ∧ (599 : Nat) < 600 ∧
    aiohttpStatusCodes.contains 599 = false ∧
    raiseForStatus aiohttpStatusCodes
      ⟨599, "Network Connect Timeout Error", "upstream timeout", none⟩ =
      .ok () :=
  ⟨by decide, by decide, by decide, rfl⟩

/-- C5 as amended: for every response with status in [400, 600) whose
status has a matching kind in the taxonomy, the raised error carries the
status and the reason phrase extended with the body's service-specific
`error` field when the body parses as a mapping containing one (an empty
field counts as no message and falls back), otherwise with the raw response
text when non-empty; a status with no matching kind in the taxonomy makes
the function return normally with no error raised. -/
theorem c5_raise_for_status_amended (taxonomy : List Nat) (resp : Response)
    (h4 : 400 ≤ resp.status) (h6 : resp.status < 600) :
    (taxonomy.contains resp.status = true →
      raiseForStatus taxonomy resp =
        .error (.httpError resp.status (specReason resp))) ∧
    (taxonomy.contains resp.status = false →
      raiseForStatus taxonomy resp = .ok ()) := by
  have hin : 400 ≤ resp.status ∧ resp.status < 600 := ⟨h4, h6⟩
  constructor
  · intro ht
    cases he : errorField resp.jsonBody with
    | some s =>
      by_cases hs : s = ""
      · subst hs
        by_cases hb : resp.bodyText = ""
        · simp [raiseForStatus, specReason, he, hin, ht, hb]
          simpa using ht
        · simp [raiseForStatus, specReason, he, hin, ht, hb]
          simpa using ht
      · simp only [raiseForStatus, specReason, he, hin, ht, hs]
        simp [hs]
    | none =>
      by_cases hb : resp.bodyText = ""
      · simp [raiseForStatus, specReason, he, hin, ht, hb]
        simpa using ht
      · simp [raiseForStatus, specReason, he, hin, ht, hb]
        simpa using ht
  · intro ht
    simp [raiseForStatus, hin, ht]
    simpa using ht

/-- Witness for C5's amended theorem: a mapped 404 with a JSON `error` field
raises the composed error, a mapped 404 whose mapping carries an empty
`error` field falls back to the raw body text, and an unmapped 599 returns
normally. -/
theorem c5_raise_for_status_amended_witness :
    raiseForStatus aiohttpStatusCodes
      ⟨404, "Not Found", "x",
       some (.jobj [("error", .jstr "class not found")])⟩ =
      .error (.httpError 404
        "Not Found\nSpace-Track response:\nclass not found") ∧
    raiseForStatus aiohttpStatusCodes
      ⟨404, "Not Found", "raw body", some (.jobj [("error", .jstr "")])⟩ =
      .error (.httpError 404 "Not Found\nSpace-Track response:\nraw body") ∧
    raiseForStatus aiohttpStatusCodes
      ⟨599, "Network Connect Timeout Error", "upstream timeout", none⟩ =
      .ok () :=
  ⟨(c5_raise_for_status_amended aiohttpStatusCodes
      ⟨404, "Not Found", "x",
       some (.jobj [("error", .jstr "class not found")])⟩
      (by decide) (by decide)).1 (by decide),
   (c5_raise_for_status_amended aiohttpStatusCodes
      ⟨404, "Not Found", "raw body", some (.jobj [("error", .jstr "")])⟩
      (by decide) (by decide)).1 (by decide),
   (c5_raise_for_status_amended aiohttpStatusCodes
      ⟨599, "Network Connect Timeout Error", "upstream timeout", none⟩
      (by decide) (by decide)).2 (by decide)⟩

end SpacetrackAio
